import Mathlib

set_option autoImplicit false

deriving instance DecidableEq for Except

namespace GoRest

/-!
Shallow embedding of jsaund/gorest: the annotation extractor and the
declaration walker of src/parse/parse.go, and the template-driven code
generator together with the runtime semantics of the code it emits
(src/unnamed/part_002, package generate).  Go strings are Lean Strings
(lists of characters), Go maps are association lists with
replace-or-append assignment, Go panics and log.Fatalf aborts are
explicit error values.
-/

/-- A word character in the sense of the RE2 class backslash-w used by the
annotation pattern of src/parse/parse.go: ASCII letters, digits and
underscore. -/
def isWordChar (c : Char) : Bool :=
  c.isAlpha || c.isDigit || c = '_'

/-- Greedy capture for the tail fragment of the fixed annotation regex
pattern: starting right after the opening quote, the Go engine's greedy
dot-star takes the longest prefix u such that the input continues with a
quote and a closing parenthesis after u, where u may not contain a newline
because the RE2 dot does not match newline.  Returns that longest u. -/
def greedyCapture : List Char → Option (List Char)
  | [] => none
  | c :: rest =>
    match if c = '\n' then none else (greedyCapture rest).map (fun u => c :: u) with
    | some u => some u
    | none => if c = '"' && rest.head? = some ')' then some [] else none

/-- One attempted match of the annotation regex of src/parse/parse.go at the
current position: an at-sign, a maximal nonempty run of word characters
(the key), an opening parenthesis, a quote, the greedy capture (the value),
a quote and a closing parenthesis.  Trailing input is ignored, as the
pattern is unanchored. -/
def matchAt : List Char → Option (List Char × List Char)
  | '@' :: rest =>
    let key := rest.takeWhile isWordChar
    if key.isEmpty then none
    else
      match rest.drop key.length with
      | '(' :: '"' :: tail => (greedyCapture tail).map (fun v => (key, v))
      | _ => none
  | _ => none

/-- Leftmost match of the annotation regex, as re.FindStringSubmatch
returns it: the first position at which matchAt succeeds. -/
def findMatch : List Char → Option (List Char × List Char)
  | [] => none
  | c :: rest =>
    match matchAt (c :: rest) with
    | some kv => some kv
    | none => findMatch rest

/-- The Annotation record of src/parse/parse.go (key and value of one
matched marker). -/
structure Annot where
  key : String
  value : String
deriving DecidableEq, Repr

/-- The httpMethods set of src/parse/parse.go. -/
def httpMethods : List String :=
  ["DELETE", "GET", "HEAD", "POST", "POST_FORM", "PUT"]

/-- The annotationTypes set of src/parse/parse.go (parameter keys). -/
def annotTypes : List String :=
  ["FIELD", "HEADER", "PART", "PATH", "QUERY", "SYNC", "ASYNC"]

/-- httpAnnotationFilter of src/parse/parse.go. -/
def httpAnnotFilter (s : String) : Bool :=
  httpMethods.contains s

/-- requestAnnotationFilter of src/parse/parse.go. -/
def requestAnnotFilter (s : String) : Bool :=
  annotTypes.contains s

/-- extractAnnotation of src/parse/parse.go: run the regex, keep the match
only when the key passes the filter, otherwise return the zero Annotation
and false. -/
def extractAnnot (filter : String → Bool) (s : String) : Annot × Bool :=
  match findMatch s.data with
  | some (k, v) =>
    if filter ⟨k⟩ then (⟨⟨k⟩, ⟨v⟩⟩, true) else (⟨"", ""⟩, false)
  | none => (⟨"", ""⟩, false)

/-- ExtractHttpAnnotation of src/parse/parse.go, which canonicalizes
POST_FORM to POST after filtering. -/
def extractHttpAnnot (s : String) : Annot × Bool :=
  let r := extractAnnot httpAnnotFilter s
  if r.1.key = "POST_FORM" then ({ r.1 with key := "POST" }, r.2) else r

/-- ExtractRequestAnnotation of src/parse/parse.go. -/
def extractRequestAnnot (s : String) : Annot × Bool :=
  extractAnnot requestAnnotFilter s

example : extractHttpAnnot "@DELETE(\"/test\")" = (⟨"DELETE", "/test"⟩, true) := by decide
example : extractHttpAnnot "@POST_FORM(\"/test\")" = (⟨"POST", "/test"⟩, true) := by decide
example : extractHttpAnnot "@INVALID(\"/test\")" = (⟨"", ""⟩, false) := by decide
example : extractHttpAnnot "@SYNC(\"/test\")" = (⟨"", ""⟩, false) := by decide
example : extractHttpAnnot "@(\"/test\")" = (⟨"", ""⟩, false) := by decide
example : extractHttpAnnot "@@(\"/test\")" = (⟨"", ""⟩, false) := by decide
example : extractHttpAnnot "@GET(\"\")" = (⟨"GET", ""⟩, true) := by decide
example : extractRequestAnnot "@PATH(\"test_4\")" = (⟨"PATH", "test_4"⟩, true) := by decide
example : extractRequestAnnot "@HEAD(\"/test\")" = (⟨"", ""⟩, false) := by decide
example : extractRequestAnnot "@field(\"invalid\")" = (⟨"", ""⟩, false) := by decide
example : extractRequestAnnot "// @PATH(\"id\")" = (⟨"PATH", "id"⟩, true) := by decide

/-!
The declaration walker (Parser.Visit of src/parse/parse.go).
An interface method (ast.Field) carries an optional doc-comment group
(a nonempty list of raw comment lines in Go, an arbitrary list here),
its name list and its parameter list of (name, type) pairs.
-/

/-- One interface method as the walker and the generator see it: the
ast.Field with its Doc comment group, Names and the parameter list of
its function type. -/
structure Method where
  docLines : Option (List String)
  names : List String
  params : List (String × String)
deriving DecidableEq, Repr

/-- The ParseResult record of src/parse/parse.go; Go maps become
association lists with replace-or-append assignment. -/
structure ParseResult where
  packageName : String
  requestType : String
  apiEndpoint : String
  httpMethod : String
  pathSubstitutions : List (String × Method)
  queryParams : List (String × Method)
  postFormParams : List (String × Method)
  postMultiPartParams : List (String × Method)
  postParams : List (String × Method)
  headerParams : List (String × Method)
  syncResponse : Option Method
  asyncResponse : Option Method
  callbackType : String
  responseType : String
deriving DecidableEq, Repr

/-- newParseResult of src/parse/parse.go: a fresh result carrying only the
package name, with empty maps and zero values elsewhere. -/
def newParseResult (pkg : String) : ParseResult :=
  { packageName := pkg
    requestType := ""
    apiEndpoint := ""
    httpMethod := ""
    pathSubstitutions := []
    queryParams := []
    postFormParams := []
    postMultiPartParams := []
    postParams := []
    headerParams := []
    syncResponse := none
    asyncResponse := none
    callbackType := ""
    responseType := "" }

/-- Go map assignment m[k] = v on the association-list model: replace the
first binding of k when present, else append the new binding. -/
def mapInsert {ν : Type} (k : String) (v : ν) : List (String × ν) → List (String × ν)
  | [] => [(k, v)]
  | (k0, v0) :: rest => if k0 = k then (k, v) :: rest else (k0, v0) :: mapInsert k v rest

/-- Go map read m[k] on the association-list model. -/
def lookupKey {ν : Type} (k : String) : List (String × ν) → Option ν
  | [] => none
  | (k0, v0) :: rest => if k0 = k then some v0 else lookupKey k rest

/-- A run-time fault of the walker: the Go code of Parser.Visit
dereferences f.Doc.List[0] and f.Names[0] without nil or bounds checks. -/
inductive WalkPanic
  | nilDocList
  | docIndexRange
  | namesIndexRange
deriving DecidableEq, Repr

/-- The switch on annotation.Key in Parser.Visit routing one method into
its ParseResult slot, keyed — as the code does — by param, the method
name. -/
def routeMethod (a : Annot) (param : String) (f : Method) (r : ParseResult) : ParseResult :=
  if a.key = "FIELD" then { r with postFormParams := mapInsert param f r.postFormParams }
  else if a.key = "HEADER" then { r with headerParams := mapInsert param f r.headerParams }
  else if a.key = "PART" then { r with postMultiPartParams := mapInsert param f r.postMultiPartParams }
  else if a.key = "PATH" then { r with pathSubstitutions := mapInsert param f r.pathSubstitutions }
  else if a.key = "QUERY" then { r with queryParams := mapInsert param f r.queryParams }
  else if a.key = "SYNC" then { r with syncResponse := some f, responseType := a.value }
  else if a.key = "ASYNC" then { r with asyncResponse := some f, callbackType := a.value }
  else r

/-- The RequestSpec map a parameter annotation key routes into: FIELD to
PostFormParams, HEADER to HeaderParams, PART to PostMultiPartParams, PATH
to PathSubstitutions, QUERY to QueryParams. -/
def paramMapOf (key : String) (r : ParseResult) : List (String × Method) :=
  if key = "FIELD" then r.postFormParams
  else if key = "HEADER" then r.headerParams
  else if key = "PART" then r.postMultiPartParams
  else if key = "PATH" then r.pathSubstitutions
  else if key = "QUERY" then r.queryParams
  else []

/-- The method loop of the InterfaceType case of Parser.Visit: extract the
request annotation from the first doc-comment line (a nil Doc group or an
empty Names list faults as in Go), skip the method when the extraction is
invalid, otherwise route it. -/
def processMethods (r : ParseResult) : List Method → Except WalkPanic ParseResult
  | [] => .ok r
  | f :: rest =>
    match f.docLines with
    | none => .error .nilDocList
    | some [] => .error .docIndexRange
    | some (line :: _) =>
      let e := extractRequestAnnot line
      if !e.2 then processMethods r rest
      else
        match f.names.head? with
        | none => .error .namesIndexRange
        | some param => processMethods (routeMethod e.1 param f r) rest

/-- The AST nodes Parser.Visit dispatches on, in the order ast.Walk
delivers them: the enclosing file, each comment of a doc group, each type
specification, and the interface type below an interface specification. -/
inductive GoNode
  | fileNode
  | commentNode (text : String)
  | typeSpecNode (name : String) (isInterface : Bool)
  | interfaceNode (methods : List Method)

/-- The mutable walker state: the buildRequest flag and the shared
ParseResult. -/
structure WalkState where
  buildRequest : Bool
  result : ParseResult
deriving DecidableEq, Repr

/-- One step of Parser.Visit of src/parse/parse.go. -/
def visitNode (s : WalkState) : GoNode → Except WalkPanic WalkState
  | .fileNode => .ok { s with buildRequest := false }
  | .typeSpecNode name isInterface =>
    if isInterface then
      if s.buildRequest then .ok { s with result := { s.result with requestType := name } }
      else .ok { s with buildRequest := false }
    else .ok s
  | .interfaceNode methods =>
    if !s.buildRequest then .ok s
    else
      match processMethods s.result methods with
      | .ok r => .ok { s with result := r }
      | .error e => .error e
  | .commentNode text =>
    let e := extractHttpAnnot text
    if e.2 then
      .ok { buildRequest := true
            result := { s.result with httpMethod := e.1.key, apiEndpoint := e.1.value } }
    else .ok s

/-- ast.Walk over a node sequence, threading the walker state and stopping
at the first fault. -/
def runNodes (s : WalkState) : List GoNode → Except WalkPanic WalkState
  | [] => .ok s
  | n :: ns =>
    match visitNode s n with
    | .ok s1 => runNodes s1 ns
    | .error e => .error e

/-- Parser.Parse of src/parse/parse.go: walk one source unit from the
initial state. -/
def runWalker (pkg : String) (ns : List GoNode) : Except WalkPanic WalkState :=
  runNodes { buildRequest := false, result := newParseResult pkg } ns

/-!
Runtime semantics of the code emitted by the builder template of the
generate package (src/unnamed/part_002): the builder state, path
substitution, request assembly and the sync execution wrapper, plus the
process-wide client registry of src/restclient/client_manager.go.
-/

/-- Fuelled scanner implementing strings.Replace(s, pat, rep, -1): scan
left to right, replace each non-overlapping occurrence of pat by rep,
resume after the replaced occurrence.  The fuel only bounds the recursion
and never runs out when it starts at the input length. -/
def replaceAllFuel (pat rep : List Char) : Nat → List Char → List Char
  | 0, l => l
  | _ + 1, [] => []
  | fuel + 1, c :: s =>
    if pat.isPrefixOf (c :: s) then
      rep ++ replaceAllFuel pat rep fuel (s.drop (pat.length - 1))
    else
      c :: replaceAllFuel pat rep fuel s

/-- strings.Replace(s, pat, rep, -1) as the generated
applyPathSubstituions calls it.  The generated code only ever passes a
pattern of the shape brace, key, brace, which is never empty. -/
def replaceAll (pat rep l : List Char) : List Char :=
  replaceAllFuel pat rep l.length l

/-- The applyPathSubstituions routine emitted by the builder template
(the generated source spells the name that way): return the endpoint
unchanged when no substitution was recorded, otherwise iterate the
pathSubstitutions map, replacing every occurrence of the key wrapped in
braces by the stored value.  The association-list order stands in for
Go's unspecified map iteration order; theorems quantify over its
permutations. -/
def applyPathSubstituions (subs : List (String × String)) (api : List Char) : List Char :=
  if subs = [] then api
  else subs.foldl (fun s kv => replaceAll ('{' :: kv.1.data ++ ['}']) kv.2.data s) api

/-- The generated builder struct: pathSubstitutions and headerParams are
string maps, queryParams and postFormParams are url.Values (flattened to
their add-ordered pair lists), postBody a single optional slot, and
postMultiPartParam the byte-payload map (payloads modelled as strings,
as the generated code writes string(value) into the multipart writer). -/
structure Builder where
  pathSubstitutions : List (String × String)
  queryParams : List (String × String)
  postFormParams : List (String × String)
  postBody : Option String
  postMultiPartParam : List (String × String)
  headerParams : List (String × String)
deriving DecidableEq, Repr

/-- Insert one pair into a key-sorted pair list, after existing pairs with
the same key. -/
def insertSorted (kv : String × String) : List (String × String) → List (String × String)
  | [] => [kv]
  | kv0 :: rest => if kv.1 < kv0.1 then kv :: kv0 :: rest else kv0 :: insertSorted kv rest

/-- Stable sort of a pair list by key. -/
def sortByKey (l : List (String × String)) : List (String × String) :=
  l.foldl (fun acc kv => insertSorted kv acc) []

/-- Model of the net/url Values.Encode collaborator used by the generated
build routine: key=value pairs joined by ampersands, keys in sorted
order; the collaborator's percent-escaping is abstracted away. -/
def urlValuesEncode (l : List (String × String)) : String :=
  String.intercalate "&" ((sortByKey l).map (fun kv => kv.1 ++ "=" ++ kv.2))

/-- http.Header.Set on the association-list model of a header map. -/
def setHeader (k v : String) (hs : List (String × String)) : List (String × String) :=
  mapInsert k v hs

/-- The request body assembled by the generated build routine, recording
which collaborator encoding was chosen and from which builder data. -/
inductive BodyContent
  | jsonBody (payload : String)
  | formBody (encoded : String)
  | multipartBody (parts : List (String × String))
deriving DecidableEq, Repr

/-- The outgoing http.Request as the generated build routine shapes it. -/
structure Request where
  method : String
  url : String
  rawQuery : String
  headers : List (String × String)
  body : Option BodyContent
deriving DecidableEq, Repr

/-- The registered rest client (src/restclient): base URL and debug flag;
the transport handle is a collaborator and stays abstract. -/
structure RestClient where
  baseURL : String
  debug : Bool
deriving DecidableEq, Repr

/-- RegisterClient of src/restclient/client_manager.go: overwrite the
single process-wide client slot. -/
def registerClient (c : RestClient) (_s : Option RestClient) : Option RestClient :=
  some c

/-- GetClient of src/restclient/client_manager.go: read the slot, which
starts out as the nil interface (none). -/
def getClient (s : Option RestClient) : Option RestClient :=
  s

/-- Result of the generated build routine: a Go-level error return, a
panic (nil request dereference), or the assembled request. -/
inductive BuildOutcome
  | panicNilDeref
  | errResult (msg : String)
  | okResult (req : Request)
deriving DecidableEq, Repr

/-- The error message the generated code returns when no client is
registered. -/
def noClientMsg : String :=
  "A rest client has not been registered yet. You must call client.RegisterClient first"

/-- After the method switch, the generated build routine unconditionally
sets the Accept header on the request and then applies every headerParams
entry via Header.Set. -/
def finishHeaders (b : Builder) (req : Request) : Request :=
  { req with
    headers := b.headerParams.foldl (fun hs kv => setHeader kv.1 kv.2 hs)
      (setHeader "Accept" "application/json" req.headers) }

/-- The build routine emitted by the builder template, lines 123-181 of
src/unnamed/part_002: look up the registered client, substitute the path,
then switch on the HTTP method.  POST and PUT choose the body with the
postBody, postFormParams, postMultiPartParam precedence; GET and DELETE
attach the encoded query string; any other method (HEAD included) falls
through the switch with a nil request, so the unconditional
req.Header.Set afterwards dereferences nil, as does the POST/PUT branch
when no body source is set. -/
def build (httpMethod apiEndpoint : String) (registry : Option RestClient) (b : Builder) :
    BuildOutcome :=
  match getClient registry with
  | none => .errResult noClientMsg
  | some c =>
    let url : String := c.baseURL ++ ⟨applyPathSubstituions b.pathSubstitutions apiEndpoint.data⟩
    if httpMethod = "POST" ∨ httpMethod = "PUT" then
      match b.postBody with
      | some payload =>
        .okResult (finishHeaders b
          { method := httpMethod, url := url, rawQuery := ""
            headers := [("Content-Type", "application/json")]
            body := some (.jsonBody payload) })
      | none =>
        if b.postFormParams ≠ [] then
          .okResult (finishHeaders b
            { method := httpMethod, url := url, rawQuery := ""
              headers := [("Content-Type", "application/x-www-form-urlencoded")]
              body := some (.formBody (urlValuesEncode b.postFormParams)) })
        else if b.postMultiPartParam ≠ [] then
          .okResult (finishHeaders b
            { method := httpMethod, url := url, rawQuery := ""
              headers := [("Content-Type", "multipart/form-data")]
              body := some (.multipartBody b.postMultiPartParam) })
        else .panicNilDeref
    else if httpMethod = "GET" ∨ httpMethod = "DELETE" then
      .okResult (finishHeaders b
        { method := httpMethod, url := url
          rawQuery := if b.queryParams ≠ [] then urlValuesEncode b.queryParams else ""
          headers := []
          body := none })
    else .panicNilDeref

/-- Result of the generated sync execution wrapper. -/
inductive RunOutcome
  | panicked
  | failure (msg : String)
  | success (decoded : String)
deriving DecidableEq, Repr

/-- The sync execution wrapper emitted by the builder template, lines
183-216 of src/unnamed/part_002: build the request (propagating its error
return, or the panic), re-check the registry, hand the request to the
transport collaborator, and decode the body via the response constructor
collaborator; both collaborators stay abstract parameters. -/
def syncRun (transport : Request → Except String String)
    (decodeResp : String → Except String String)
    (httpMethod apiEndpoint : String) (registry : Option RestClient) (b : Builder) :
    RunOutcome :=
  match build httpMethod apiEndpoint registry b with
  | .panicNilDeref => .panicked
  | .errResult msg => .failure msg
  | .okResult req =>
    match getClient registry with
    | none => .failure noClientMsg
    | some _ =>
      match transport req with
      | .error msg => .failure msg
      | .ok respBody =>
        match decodeResp respBody with
        | .error msg => .failure msg
        | .ok result => .success result

/-!
The Generate function of the generate package (src/unnamed/part_002):
template-driven lowering of a ParseResult to the generated source.  The
template's emission decisions and the template functions (FunctionName,
AnnotationValue, ParamName) are embedded; a log.Fatalf inside a template
function, or a panic surfaced as a template execution error followed by
log.Fatalf in Generate, both abort generation and are modelled as error
values.  The gofmt formatting collaborator that runs after successful
template execution is abstracted as the identity.
-/

/-- A generation abort: log.Fatalf in a template helper, or the template
execution error produced when a helper panics. -/
inductive GenFault
  | fatalNoAnnot
  | fatalNoParams
  | fatalNilField
  | fatalNoName
deriving DecidableEq, Repr

/-- Strip the leading double-slash marker of one line comment and a
single following space, as go/ast CommentGroup.Text does. -/
def dropCommentMarker (line : String) : String :=
  match line.data with
  | '/' :: '/' :: ' ' :: rest => ⟨rest⟩
  | '/' :: '/' :: rest => ⟨rest⟩
  | l => ⟨l⟩

/-- go/ast CommentGroup.Text for line-comment groups: marker-stripped
lines joined by newlines with one trailing newline; a nil group yields
the empty string. -/
def commentGroupText (g : Option (List String)) : String :=
  match g with
  | none => ""
  | some lines => String.intercalate "\n" (lines.map dropCommentMarker) ++ "\n"

/-- getAnnotationValue of src/unnamed/part_002: extract the request
annotation from the field's full doc text; a failed extraction hits
log.Fatalf. -/
def getAnnotValue (f : Method) : Except GenFault String :=
  let e := extractRequestAnnot (commentGroupText f.docLines)
  if e.2 then .ok e.1.value else .error .fatalNoAnnot

/-- getFunctionName of src/unnamed/part_002: f.Names[0].Name, where a nil
field or an empty name list panics (surfacing as a template execution
error). -/
def getFuncName (f : Option Method) : Except GenFault String :=
  match f with
  | none => .error .fatalNilField
  | some m =>
    match m.names.head? with
    | none => .error .fatalNoName
    | some n => .ok n

/-- getParamName of src/unnamed/part_002 at index 0: the name of the
method's first parameter; an empty parameter list hits log.Fatalf. -/
def getParamName0 (f : Method) : Except GenFault String :=
  match f.params.head? with
  | none => .error .fatalNoParams
  | some p => .ok p.1

/-- One fluent setter emitted by the builder template: the generated
method name (the range key of the ParseResult map), the builder field its
body writes to, and the run-time key it stores under (the annotation
value; none for the body setter, which has no key). -/
structure Setter where
  funcName : String
  targetField : String
  runtimeKey : Option String
deriving DecidableEq, Repr

/-- Emit the setter block for one categorized map: every entry yields one
setter writing targetField; withKey setters evaluate AnnotationValue for
the run-time key, and every setter body evaluates ParamName. -/
def emitSetters (targetField : String) (withKey : Bool) (entries : List (String × Method)) :
    Except GenFault (List Setter) :=
  entries.mapM (fun kv => do
    let key ← if withKey then (getAnnotValue kv.2).map some else pure (none : Option String)
    let _pname ← getParamName0 kv.2
    pure { funcName := kv.1, targetField := targetField, runtimeKey := key })

/-- The shape of the generated source, recording what the template
emitted: the optional callback declaration (with the response type its
OnSuccess mentions), the builder struct fields, each setter block, the
builder field the build routine's multipart branch reads, and the
emitted sync and async wrappers (the async entry also records the sync
function name its goroutine calls). -/
structure GenOutput where
  packageName : String
  callbackDecl : Option (String × String)
  structFields : List String
  pathSetters : List Setter
  querySetters : List Setter
  formSetters : List Setter
  bodySetters : List Setter
  headerSetters : List Setter
  partSetters : List Setter
  buildReadsMultipartField : String
  syncWrapper : Option String
  asyncWrapper : Option (String × String)
deriving DecidableEq, Repr

/-- The sync wrapper block of the builder template, gated on ResponseType
and SyncResponse together; it emits the function named by the SYNC
method. -/
def emitSyncWrapper (r : ParseResult) : Except GenFault (Option String) :=
  match r.syncResponse with
  | some sm =>
    if r.responseType ≠ "" then (getFuncName (some sm)).map some
    else pure none
  | none => pure none

/-- The async wrapper block of the builder template, gated on
CallbackType and AsyncResponse only; its body evaluates FunctionName on
the AsyncResponse method and on SyncResponse — nil or not — because the
emitted goroutine calls the sync wrapper. -/
def emitAsyncWrapper (r : ParseResult) : Except GenFault (Option (String × String)) :=
  if r.callbackType ≠ "" then
    match r.asyncResponse with
    | some am => do
      let aname ← getFuncName (some am)
      let _pname ← getParamName0 am
      let sname ← getFuncName r.syncResponse
      pure (some (aname, sname))
    | none => pure none
  else pure none

/-- Generate of src/unnamed/part_002: execute the builder template over
the ParseResult.  Blocks run in template order; the callback declaration
is gated on CallbackType alone, the sync wrapper on ResponseType and
SyncResponse, the async wrapper on CallbackType and AsyncResponse — and
the async body additionally evaluates FunctionName on SyncResponse, nil
or not.  The PART setter block assigns the field postMultiPartParams,
while the emitted struct declares and the build routine reads
postMultiPartParam. -/
def generate (r : ParseResult) : Except GenFault GenOutput := do
  let cb := if r.callbackType ≠ "" then some (r.callbackType, r.responseType) else none
  let ps ← emitSetters "pathSubstitutions" true r.pathSubstitutions
  let qs ← emitSetters "queryParams" true r.queryParams
  let fs ← emitSetters "postFormParams" true r.postFormParams
  let bs ← emitSetters "postBody" false r.postParams
  let hs ← emitSetters "headerParams" true r.headerParams
  let ms ← emitSetters "postMultiPartParams" true r.postMultiPartParams
  let sync ← emitSyncWrapper r
  let async ← emitAsyncWrapper r
  pure
    { packageName := r.packageName
      callbackDecl := cb
      structFields :=
        ["pathSubstitutions", "queryParams", "postFormParams", "postBody",
         "postMultiPartParam", "headerParams"]
      pathSetters := ps
      querySetters := qs
      formSetters := fs
      bodySetters := bs
      headerSetters := hs
      partSetters := ms
      buildReadsMultipartField := "postMultiPartParam"
      syncWrapper := sync
      asyncWrapper := async }

/-!
Structured endpoint templates, used to reason about path substitution: a
template is a sequence of brace-free literal segments and substitution
tokens, flattened to the string the annotation records.
-/

/-- One segment of an endpoint template: a literal run or a token (the
token renders as its key wrapped in braces). -/
inductive PathSeg
  | lit (s : List Char)
  | tok (k : List Char)
deriving DecidableEq, Repr

/-- Flatten one segment to its characters. -/
def renderSeg : PathSeg → List Char
  | .lit s => s
  | .tok k => '{' :: k ++ ['}']

/-- Flatten a template to the endpoint string. -/
def renderTemplate (segs : List PathSeg) : List Char :=
  segs.foldr (fun sg acc => renderSeg sg ++ acc) []

/-- A character list with no brace characters. -/
def BraceFreeL (l : List Char) : Prop :=
  '{' ∉ l ∧ '}' ∉ l

instance (l : List Char) : Decidable (BraceFreeL l) := by
  unfold BraceFreeL
  infer_instance

/-- Well-formedness of one segment: literal runs and token keys are
brace-free. -/
def SegWF : PathSeg → Prop
  | .lit s => BraceFreeL s
  | .tok k => BraceFreeL k

instance (sg : PathSeg) : Decidable (SegWF sg) := by
  cases sg <;> (unfold SegWF; infer_instance)

/-- Well-formedness of a template. -/
def SegsWF (segs : List PathSeg) : Prop :=
  ∀ sg ∈ segs, SegWF sg

instance (segs : List PathSeg) : Decidable (SegsWF segs) := by
  unfold SegsWF
  infer_instance

/-- Substitute a single recorded key: a matching token becomes the literal
value, everything else is untouched. -/
def substOne (k w : List Char) : PathSeg → PathSeg
  | .lit s => .lit s
  | .tok j => if j = k then .lit w else .tok j

/-- Substitute every recorded pair in iteration order. -/
def substAllList (ps : List (String × String)) (sg : PathSeg) : PathSeg :=
  ps.foldl (fun acc kv => substOne kv.1.data kv.2.data acc) sg

/-- First binding of a key (given by its characters) in a recorded pair
list. -/
def lookupData (j : List Char) : List (String × String) → Option (List Char)
  | [] => none
  | kv :: rest => if kv.1.data = j then some kv.2.data else lookupData j rest

/-- The brace-wrapped token of a key, as the emitted setter target strings
are built. -/
def tokenOf (k : String) : String :=
  ⟨'{' :: k.data ++ ['}']⟩

/-- The exact annotation form at-key-parenthesis-quote-value-quote-
parenthesis used to state the extraction claims. -/
def annotInput (key p : String) : String :=
  ⟨'@' :: (key.data ++ ('(' :: ('"' :: (p.data ++ ['"', ')']))))⟩

/-!
Concrete sample data shared by witnesses and counterexamples.
-/

/-- A registered client used by concrete evaluations. -/
def sampleClient : RestClient := ⟨"https://h", false⟩

/-- A PATH-annotated method named A with annotation value id. -/
def pathMethodA : Method := ⟨some ["// @PATH(\"id\")"], ["A"], [("x", "string")]⟩

/-- A second PATH-annotated method, named B, with the same annotation
value id. -/
def pathMethodB : Method := ⟨some ["// @PATH(\"id\")"], ["B"], [("y", "string")]⟩

/-- An interface method with no doc comment at all. -/
def noDocMethod : Method := ⟨none, ["Foo"], [("x", "string")]⟩

/-- A method whose doc comment carries no recognizable annotation. -/
def plainDocMethod : Method := ⟨some ["// just a comment"], ["Bar"], [("x", "string")]⟩

/-- A PART-annotated method. -/
def partMethod : Method := ⟨some ["// @PART(\"data\")"], ["Data"], [("d", "bytes")]⟩

/-- A SYNC-annotated execution method. -/
def syncMethod : Method := ⟨some ["// @SYNC(\"Resp\")"], ["Run"], []⟩

/-- An ASYNC-annotated execution method. -/
def asyncMethod : Method := ⟨some ["// @ASYNC(\"CB\")"], ["RunAsync"], [("cb", "CB")]⟩

/-- A spec with a single PART entry. -/
def partSpec : ParseResult :=
  { newParseResult "test" with postMultiPartParams := [("Data", partMethod)] }

/-- A spec carrying the ASYNC data but no SYNC data. -/
def asyncOnlySpec : ParseResult :=
  { newParseResult "test" with callbackType := "CB", asyncResponse := some asyncMethod }

/-- A spec carrying both SYNC and ASYNC data. -/
def syncAsyncSpec : ParseResult :=
  { newParseResult "test" with
    callbackType := "CB"
    responseType := "Resp"
    syncResponse := some syncMethod
    asyncResponse := some asyncMethod }

/-- A builder holding one query parameter and one header entry. -/
def qBuilder : Builder := ⟨[], [("q", "1")], [], none, [], [("k", "v")]⟩

/-- The freshly constructed builder. -/
def emptyBuilder : Builder := ⟨[], [], [], none, [], []⟩

/-- A builder with a post body, form parameters and multipart payloads
all set at once. -/
def postAllBuilder : Builder := ⟨[], [], [("f", "1")], some "P", [("d", "D")], []⟩

/-- The generator output for syncAsyncSpec. -/
def syncAsyncGen : GenOutput :=
  { packageName := "test"
    callbackDecl := some ("CB", "Resp")
    structFields :=
      ["pathSubstitutions", "queryParams", "postFormParams", "postBody",
       "postMultiPartParam", "headerParams"]
    pathSetters := []
    querySetters := []
    formSetters := []
    bodySetters := []
    headerSetters := []
    partSetters := []
    buildReadsMultipartField := "postMultiPartParam"
    syncWrapper := some "Run"
    asyncWrapper := some ("RunAsync", "Run") }

/-- The walker state after an armed HTTP annotation and one interface
type specification named I. -/
def c8State : WalkState :=
  { buildRequest := true
    result := { newParseResult "p" with
      httpMethod := "GET"
      apiEndpoint := "/x"
      requestType := "I" } }

/-!
Shared lemmas about the association-list map model.
-/

theorem lookupKey_mapInsert_self {ν : Type} (k : String) (v : ν) (m : List (String × ν)) :
    lookupKey k (mapInsert k v m) = some v := by
  induction m with
  | nil => simp [mapInsert, lookupKey]
  | cons kv rest ih =>
    by_cases h : kv.1 = k
    · simp [mapInsert, lookupKey, h]
    · simp [mapInsert, lookupKey, h, ih]

theorem lookupKey_mapInsert_other {ν : Type} (k k1 : String) (v : ν) (m : List (String × ν))
    (h : k1 ≠ k) :
    lookupKey k (mapInsert k1 v m) = lookupKey k m := by
  induction m with
  | nil => simp [mapInsert, lookupKey, h]
  | cons kv rest ih =>
    by_cases h1 : kv.1 = k1
    · simp [mapInsert, lookupKey, h1, h, Ne.symm h]
    · simp only [mapInsert, lookupKey, h1, if_false]
      by_cases h2 : kv.1 = k
      · simp [lookupKey, h2]
      · simp [lookupKey, h2, ih]

/-- Stepping lemma for the method loop: a method whose first doc line
extracts to a valid request annotation is routed and the loop proceeds. -/
theorem processMethods_step_valid (f : Method) (rest : List Method) (r : ParseResult)
    (line : String) (more : List String) (n : String)
    (hdoc : f.docLines = some (line :: more))
    (hvalid : (extractRequestAnnot line).2 = true)
    (hn : f.names.head? = some n) :
    processMethods r (f :: rest) =
      processMethods (routeMethod (extractRequestAnnot line).1 n f r) rest := by
  obtain ⟨fd, fn, fp⟩ := f
  change fd = some (line :: more) at hdoc
  change fn.head? = some n at hn
  subst hdoc
  simp [processMethods, hvalid, hn]

/-!
Claim C10.
-/

/-- Claim C10: with no client registered (the registry's initial state),
the generated build routine and the sync execution wrapper return the
missing-registration error instead of proceeding or crashing; after
RegisterClient, GetClient returns exactly the registered client, the last
registration winning. -/
theorem c10_client_registry_guard :
    (∀ m ep b, build m ep none b = .errResult noClientMsg) ∧
    (∀ transport decodeResp m ep b,
      syncRun transport decodeResp m ep none b = .failure noClientMsg) ∧
    (∀ c s, getClient (registerClient c s) = some c) :=
  ⟨fun _ _ _ => rfl, fun _ _ _ _ _ => rfl, fun _ _ => rfl⟩

/-!
Claim C2.
-/

/-- Claim C2 (code bug): for GET and DELETE the generated build routine
returns a bodyless request with the encoded query string, the Accept
header and the header entries, exactly as the claim says — but for HEAD
the method switch has no case, the request stays nil, and the
unconditional header write dereferences nil. -/
theorem c2_head_build_panics :
    build "HEAD" "/x" (some sampleClient) qBuilder = .panicNilDeref ∧
    build "GET" "/x" (some sampleClient) qBuilder =
      .okResult ⟨"GET", "https://h/x", "q=1",
        [("Accept", "application/json"), ("k", "v")], none⟩ ∧
    build "DELETE" "/x" (some sampleClient) qBuilder =
      .okResult ⟨"DELETE", "https://h/x", "q=1",
        [("Accept", "application/json"), ("k", "v")], none⟩ := by
  decide

/-!
Claim C3.
-/

/-- Claim C3 (code bug): the setter emitted for a PART entry assigns the
builder field postMultiPartParams, but the emitted struct declares, and
the emitted build routine's multipart branch reads, the differently named
field postMultiPartParam; the stored value can therefore never reach the
assembled multipart body (the emitted source does not even compile). -/
theorem c3_part_setter_field_mismatch :
    (generate partSpec).map (fun g => g.partSetters) =
      .ok [{ funcName := "Data", targetField := "postMultiPartParams",
             runtimeKey := some "data" }] ∧
    (generate partSpec).map
      (fun g => (g.buildReadsMultipartField, g.structFields.contains "postMultiPartParams")) =
      .ok ("postMultiPartParam", false) ∧
    "postMultiPartParams" ≠ "postMultiPartParam" := by
  decide

/-!
Claim C7.
-/

/-- Claim C7 counterexample: a method carrying no doc comment at all is
not dropped — the walker dereferences the nil doc group and faults, both
at the method loop and through the whole walk. -/
theorem c7_counterexample :
    processMethods (newParseResult "t") [noDocMethod] = .error .nilDocList ∧
    runWalker "t" [.commentNode "// @GET(\"/x\")", .typeSpecNode "I" true,
      .interfaceNode [noDocMethod]] = .error .nilDocList := by
  decide

/-- Claim C7 (amended): for a method that does carry a doc comment, a
no-match extraction on its first line (malformed or unrecognized-key
text) drops the method and the loop continues unchanged; only a method
with no doc comment at all faults the walker. -/
theorem c7_nomatch_method_dropped (f : Method) (rest : List Method) (r : ParseResult)
    (line : String) (more : List String)
    (hdoc : f.docLines = some (line :: more))
    (hmiss : (extractRequestAnnot line).2 = false) :
    processMethods r (f :: rest) = processMethods r rest := by
  obtain ⟨fd, fn, fp⟩ := f
  change fd = some (line :: more) at hdoc
  subst hdoc
  simp [processMethods, hmiss]

/-- Concrete instance of the amended C7 statement. -/
theorem c7_witness :
    (extractRequestAnnot "// just a comment").2 = false ∧
    processMethods (newParseResult "t") [plainDocMethod, pathMethodA] =
      processMethods (newParseResult "t") [pathMethodA] :=
  ⟨by decide,
   c7_nomatch_method_dropped plainDocMethod [pathMethodA] (newParseResult "t")
     "// just a comment" [] rfl (by decide)⟩

/-!
Claim C1.
-/

/-- Claim C1 counterexample: two methods named A and B, both annotated
PATH with the same value id, end up as two distinct map entries keyed by
the method names; nothing is stored under the annotation value and no
overwrite happens. -/
theorem c1_counterexample :
    (processMethods (newParseResult "t") [pathMethodA, pathMethodB]).map
      (fun q => (lookupKey "id" q.pathSubstitutions, q.pathSubstitutions.map Prod.fst)) =
    .ok (none, ["A", "B"]) := by
  decide

/-- Claim C1 (amended): for every method routed under a PATH, QUERY,
FIELD, HEADER or PART annotation, the walker stores the method in the
corresponding RequestSpec map under its method name, not under the
annotation value; two such methods with distinct names are both retained
even when their annotation values coincide, each retrievable under its
own name. -/
theorem c1_map_keyed_by_method_name (key : String) (f1 f2 : Method) (r : ParseResult)
    (n1 n2 l1 l2 v1 v2 : String) (t1 t2 : List String)
    (hkey : key ∈ ["FIELD", "HEADER", "PART", "PATH", "QUERY"])
    (hd1 : f1.docLines = some (l1 :: t1))
    (hd2 : f2.docLines = some (l2 :: t2))
    (hx1 : extractRequestAnnot l1 = (⟨key, v1⟩, true))
    (hx2 : extractRequestAnnot l2 = (⟨key, v2⟩, true))
    (hn1 : f1.names.head? = some n1)
    (hn2 : f2.names.head? = some n2)
    (hne : n1 ≠ n2) :
    processMethods r [f1, f2] =
      .ok (routeMethod ⟨key, v2⟩ n2 f2 (routeMethod ⟨key, v1⟩ n1 f1 r)) ∧
    paramMapOf key (routeMethod ⟨key, v2⟩ n2 f2 (routeMethod ⟨key, v1⟩ n1 f1 r)) =
      mapInsert n2 f2 (mapInsert n1 f1 (paramMapOf key r)) ∧
    lookupKey n1 (paramMapOf key
      (routeMethod ⟨key, v2⟩ n2 f2 (routeMethod ⟨key, v1⟩ n1 f1 r))) = some f1 ∧
    lookupKey n2 (paramMapOf key
      (routeMethod ⟨key, v2⟩ n2 f2 (routeMethod ⟨key, v1⟩ n1 f1 r))) = some f2 := by
  have hv1 : (extractRequestAnnot l1).2 = true := by rw [hx1]
  have hv2 : (extractRequestAnnot l2).2 = true := by rw [hx2]
  have ha1 : (extractRequestAnnot l1).1 = ⟨key, v1⟩ := by rw [hx1]
  have ha2 : (extractRequestAnnot l2).1 = ⟨key, v2⟩ := by rw [hx2]
  have hmap : ∀ (v n : String) (f : Method) (q : ParseResult),
      paramMapOf key (routeMethod ⟨key, v⟩ n f q) = mapInsert n f (paramMapOf key q) := by
    intro v n f q
    fin_cases hkey <;> rfl
  have hmaps : paramMapOf key (routeMethod ⟨key, v2⟩ n2 f2 (routeMethod ⟨key, v1⟩ n1 f1 r)) =
      mapInsert n2 f2 (mapInsert n1 f1 (paramMapOf key r)) := by
    rw [hmap, hmap]
  refine ⟨?_, hmaps, ?_, ?_⟩
  · rw [processMethods_step_valid f1 [f2] r l1 t1 n1 hd1 hv1 hn1,
      processMethods_step_valid f2 [] _ l2 t2 n2 hd2 hv2 hn2, ha1, ha2]
    rfl
  · rw [hmaps, lookupKey_mapInsert_other n1 n2 f2 _ (Ne.symm hne), lookupKey_mapInsert_self]
  · rw [hmaps, lookupKey_mapInsert_self]

/-- Concrete instance of the amended C1 statement, at the PATH routing. -/
theorem c1_witness :
    processMethods (newParseResult "t") [pathMethodA, pathMethodB] =
      .ok (routeMethod ⟨"PATH", "id"⟩ "B" pathMethodB
        (routeMethod ⟨"PATH", "id"⟩ "A" pathMethodA (newParseResult "t"))) ∧
    paramMapOf "PATH" (routeMethod ⟨"PATH", "id"⟩ "B" pathMethodB
        (routeMethod ⟨"PATH", "id"⟩ "A" pathMethodA (newParseResult "t"))) =
      mapInsert "B" pathMethodB (mapInsert "A" pathMethodA
        (paramMapOf "PATH" (newParseResult "t"))) ∧
    lookupKey "A" (paramMapOf "PATH" (routeMethod ⟨"PATH", "id"⟩ "B" pathMethodB
        (routeMethod ⟨"PATH", "id"⟩ "A" pathMethodA (newParseResult "t")))) =
      some pathMethodA ∧
    lookupKey "B" (paramMapOf "PATH" (routeMethod ⟨"PATH", "id"⟩ "B" pathMethodB
        (routeMethod ⟨"PATH", "id"⟩ "A" pathMethodA (newParseResult "t")))) =
      some pathMethodB :=
  c1_map_keyed_by_method_name "PATH" pathMethodA pathMethodB (newParseResult "t")
    "A" "B" "// @PATH(\"id\")" "// @PATH(\"id\")" "id" "id" [] []
    (by decide) rfl rfl (by decide) (by decide) rfl rfl (by decide)

/-!
Claim C5.
-/

theorem lookupKey_foldl_setHeader (k : String) (l : List (String × String)) :
    ∀ init, lookupKey k l = none →
      lookupKey k (l.foldl (fun hs kv => setHeader kv.1 kv.2 hs) init) = lookupKey k init := by
  induction l with
  | nil => intro init _; rfl
  | cons kv rest ih =>
    intro init hl
    have h1 : ¬kv.1 = k := by
      intro h
      simp [lookupKey, h] at hl
    have h2 : lookupKey k rest = none := by
      simpa [lookupKey, h1] using hl
    simp only [List.foldl_cons]
    rw [ih (setHeader kv.1 kv.2 init) h2]
    exact lookupKey_mapInsert_other k kv.1 kv.2 init h1

/-- Looking up the content type after the header merge: the branch's
content type survives when the builder's header map does not override
it. -/
theorem lookupKey_finishHeaders_ct (b : Builder) (req : Request) (ct : String)
    (hreq : req.headers = [("Content-Type", ct)])
    (hct : lookupKey "Content-Type" b.headerParams = none) :
    lookupKey "Content-Type" (finishHeaders b req).headers = some ct := by
  unfold finishHeaders
  simp only [hreq]
  rw [lookupKey_foldl_setHeader "Content-Type" b.headerParams _ hct]
  rw [show setHeader "Accept" "application/json" [("Content-Type", ct)] =
    mapInsert "Accept" "application/json" [("Content-Type", ct)] from rfl]
  rw [lookupKey_mapInsert_other _ _ _ _ (by decide)]
  simp [lookupKey]

/-- Claim C5 counterexample: a POST builder with no body, no form
parameters and no multipart payloads does not assemble an empty-bodied
request — the generated build routine leaves the request nil and the
unconditional header write dereferences it. -/
theorem c5_counterexample :
    build "POST" "/x" (some sampleClient) emptyBuilder = .panicNilDeref := by
  decide

/-- Claim C5 (amended): for POST and PUT the body choice is exclusive
with fixed precedence — a set post body always yields its JSON encoding
with content type application/json regardless of form or multipart
entries; otherwise non-empty form parameters yield their url-encoding
with the form content type regardless of multipart entries; otherwise
non-empty multipart payloads yield the multipart encoding; setting more
than one is never an error.  But when none of the three is set the
routine faults on a nil request instead of sending an empty body. -/
theorem c5_body_precedence (m ep : String) (c : RestClient) (b : Builder)
    (hm : m = "POST" ∨ m = "PUT") :
    (∀ payload, b.postBody = some payload →
      ∃ req, build m ep (some c) b = .okResult req ∧
        req.body = some (.jsonBody payload) ∧
        (lookupKey "Content-Type" b.headerParams = none →
          lookupKey "Content-Type" req.headers = some "application/json")) ∧
    (b.postBody = none → b.postFormParams ≠ [] →
      ∃ req, build m ep (some c) b = .okResult req ∧
        req.body = some (.formBody (urlValuesEncode b.postFormParams)) ∧
        (lookupKey "Content-Type" b.headerParams = none →
          lookupKey "Content-Type" req.headers = some "application/x-www-form-urlencoded")) ∧
    (b.postBody = none → b.postFormParams = [] → b.postMultiPartParam ≠ [] →
      ∃ req, build m ep (some c) b = .okResult req ∧
        req.body = some (.multipartBody b.postMultiPartParam) ∧
        (lookupKey "Content-Type" b.headerParams = none →
          lookupKey "Content-Type" req.headers = some "multipart/form-data")) ∧
    (b.postBody = none → b.postFormParams = [] → b.postMultiPartParam = [] →
      build m ep (some c) b = .panicNilDeref) := by
  refine ⟨?_, ?_, ?_, ?_⟩
  · intro payload hp
    refine ⟨finishHeaders b
      { method := m, url := c.baseURL ++ ⟨applyPathSubstituions b.pathSubstitutions ep.data⟩
        rawQuery := "", headers := [("Content-Type", "application/json")]
        body := some (.jsonBody payload) }, ?_, rfl, ?_⟩
    · simp [build, getClient, hm, hp]
    · intro hct
      exact lookupKey_finishHeaders_ct b _ _ rfl hct
  · intro hp hf
    refine ⟨finishHeaders b
      { method := m, url := c.baseURL ++ ⟨applyPathSubstituions b.pathSubstitutions ep.data⟩
        rawQuery := "", headers := [("Content-Type", "application/x-www-form-urlencoded")]
        body := some (.formBody (urlValuesEncode b.postFormParams)) }, ?_, rfl, ?_⟩
    · simp [build, getClient, hm, hp, hf]
    · intro hct
      exact lookupKey_finishHeaders_ct b _ _ rfl hct
  · intro hp hf hmp
    refine ⟨finishHeaders b
      { method := m, url := c.baseURL ++ ⟨applyPathSubstituions b.pathSubstitutions ep.data⟩
        rawQuery := "", headers := [("Content-Type", "multipart/form-data")]
        body := some (.multipartBody b.postMultiPartParam) }, ?_, rfl, ?_⟩
    · simp [build, getClient, hm, hp, hf, hmp]
    · intro hct
      exact lookupKey_finishHeaders_ct b _ _ rfl hct
  · intro hp hf hmp
    simp [build, getClient, hm, hp, hf, hmp]

/-- Concrete instance of the amended C5 statement: with body, form and
multipart all set at once the JSON body wins and no error occurs. -/
theorem c5_witness :
    ∃ req, build "POST" "/x" (some sampleClient) postAllBuilder = .okResult req ∧
      req.body = some (.jsonBody "P") ∧
      lookupKey "Content-Type" req.headers = some "application/json" := by
  obtain ⟨req, h1, h2, h3⟩ :=
    (c5_body_precedence "POST" "/x" sampleClient postAllBuilder (Or.inl rfl)).1 "P" rfl
  exact ⟨req, h1, h2, h3 rfl⟩

/-!
Claim C8.
-/

theorem extractAnnot_filter_of_valid (filter : String → Bool) (s : String) (a : Annot)
    (h : extractAnnot filter s = (a, true)) : filter a.key = true := by
  unfold extractAnnot at h
  split at h
  next k v heq =>
    split at h
    next hfil =>
      injection h with h1 h2
      rw [← h1]
      exact hfil
    next hfil => simp at h
  next heq => simp at h

theorem extractHttpAnnot_key_ne_empty (s : String) (a : Annot)
    (h : extractHttpAnnot s = (a, true)) : a.key ≠ "" := by
  unfold extractHttpAnnot at h
  by_cases hk : (extractAnnot httpAnnotFilter s).1.key = "POST_FORM"
  · rw [if_pos hk] at h
    have : a.key = "POST" := by
      have := congrArg (fun p => p.1.key) h
      simpa using this.symm
    rw [this]
    decide
  · rw [if_neg hk] at h
    have hpair : extractAnnot httpAnnotFilter s = (a, true) := by
      rw [h]
    have hfil := extractAnnot_filter_of_valid httpAnnotFilter s a hpair
    have hmem : a.key ∈ httpMethods := by
      simpa [httpAnnotFilter] using hfil
    intro he
    rw [he] at hmem
    simp [httpMethods] at hmem

theorem routeMethod_requestType (a : Annot) (p : String) (f : Method) (r : ParseResult) :
    (routeMethod a p f r).requestType = r.requestType := by
  unfold routeMethod
  split_ifs <;> rfl

theorem routeMethod_httpMethod (a : Annot) (p : String) (f : Method) (r : ParseResult) :
    (routeMethod a p f r).httpMethod = r.httpMethod := by
  unfold routeMethod
  split_ifs <;> rfl

theorem processMethods_preserves (ms : List Method) :
    ∀ r q, processMethods r ms = .ok q →
      q.requestType = r.requestType ∧ q.httpMethod = r.httpMethod := by
  induction ms with
  | nil =>
    intro r q h
    have : r = q := by
      simpa [processMethods] using h
    rw [← this]
    exact ⟨rfl, rfl⟩
  | cons f rest ih =>
    intro r q h
    obtain ⟨fd, fn, fp⟩ := f
    cases fd with
    | none => simp [processMethods] at h
    | some lines =>
      cases lines with
      | nil => simp [processMethods] at h
      | cons line more =>
        by_cases hv : (extractRequestAnnot line).2
        · simp only [processMethods, hv, Bool.not_true, Bool.false_eq_true, if_false] at h
          cases hn : fn.head? with
          | none =>
            rw [hn] at h
            simp at h
          | some param =>
            rw [hn] at h
            have := ih _ _ h
            rw [routeMethod_requestType, routeMethod_httpMethod] at this
            exact this
        · simp only [Bool.not_eq_true] at hv
          simp only [processMethods, hv, Bool.not_false, if_true] at h
          exact ih _ _ h

/-- The walk invariant behind the amended C8 statement: an armed
buildRequest flag, and a recorded RequestType, each certify that a valid
HTTP annotation already recorded a (necessarily non-empty) HttpMethod. -/
def WalkInv (s : WalkState) : Prop :=
  (s.buildRequest = true → s.result.httpMethod ≠ "") ∧
  (s.result.requestType ≠ "" → s.result.httpMethod ≠ "")

theorem visitNode_inv (s : WalkState) (n : GoNode) (s1 : WalkState)
    (hinv : WalkInv s) (h : visitNode s n = .ok s1) : WalkInv s1 := by
  cases n with
  | fileNode =>
    have hs : s1 = { s with buildRequest := false } := by
      simpa [visitNode] using h.symm
    rw [hs]
    exact ⟨fun hh => by simp at hh, hinv.2⟩
  | typeSpecNode name isInterface =>
    cases isInterface with
    | false =>
      have hs : s1 = s := by
        simpa [visitNode] using h.symm
      rw [hs]
      exact hinv
    | true =>
      cases hbr : s.buildRequest with
      | false =>
        have hs : s1 = { s with buildRequest := false } := by
          simpa [visitNode, hbr] using h.symm
        rw [hs]
        exact ⟨fun hh => by simp at hh, hinv.2⟩
      | true =>
        have hs : s1 = { s with result := { s.result with requestType := name } } := by
          simpa [visitNode, hbr] using h.symm
        rw [hs]
        exact ⟨fun _ => hinv.1 hbr, fun _ => hinv.1 hbr⟩
  | interfaceNode methods =>
    cases hbr : s.buildRequest with
    | false =>
      have hs : s1 = s := by
        simpa [visitNode, hbr] using h.symm
      rw [hs]
      exact hinv
    | true =>
      cases hp : processMethods s.result methods with
      | error e =>
        simp [visitNode, hbr, hp] at h
      | ok r1 =>
        have hs : s1 = { s with result := r1 } := by
          simpa [visitNode, hbr, hp] using h.symm
        have hpres := processMethods_preserves methods s.result r1 hp
        rw [hs]
        constructor
        · intro _
          rw [hpres.2]
          exact hinv.1 hbr
        · intro hrt
          rw [hpres.2]
          rw [hpres.1] at hrt
          exact hinv.2 hrt
  | commentNode text =>
    cases hv : (extractHttpAnnot text).2 with
    | false =>
      have hs : s1 = s := by
        simpa [visitNode, hv] using h.symm
      rw [hs]
      exact hinv
    | true =>
      have hs : s1 = { buildRequest := true,
                       result := ({ s.result with
                         httpMethod := (extractHttpAnnot text).1.key,
                         apiEndpoint := (extractHttpAnnot text).1.value }) } := by
        simpa [visitNode, hv] using h.symm
      have hkey : (extractHttpAnnot text).1.key ≠ "" := by
        apply extractHttpAnnot_key_ne_empty text
        rw [← hv]
      rw [hs]
      exact ⟨fun _ => hkey, fun _ => hkey⟩

theorem runNodes_inv (ns : List GoNode) :
    ∀ s s1, WalkInv s → runNodes s ns = .ok s1 → WalkInv s1 := by
  induction ns with
  | nil =>
    intro s s1 hinv h
    have : s = s1 := by
      simpa [runNodes] using h
    rw [← this]
    exact hinv
  | cons n rest ih =>
    intro s s1 hinv h
    cases hstep : visitNode s n with
    | error e =>
      simp [runNodes, hstep] at h
    | ok s2 =>
      simp only [runNodes, hstep] at h
      exact ih s2 s1 (visitNode_inv s n s2 hinv hstep) h

/-- Claim C8 counterexample: a unit whose only content is an HTTP
annotation comment ends the walk with HttpMethod and ApiEndpoint set but
RequestType empty, violating the all-or-none invariant; and a unit where
the annotation is followed by a non-interface declaration does not revert
to the idle state — a later interface still gets its RequestType
recorded. -/
theorem c8_counterexample :
    (runWalker "p" [.fileNode, .commentNode "// @GET(\"/x\")"]).map
      (fun s => (s.result.httpMethod, s.result.apiEndpoint, s.result.requestType)) =
      .ok ("GET", "/x", "") ∧
    (runWalker "p" [.fileNode, .commentNode "// @GET(\"/x\")",
        .typeSpecNode "S" false, .typeSpecNode "I" true]).map
      (fun s => s.result.requestType) = .ok "I" := by
  decide

/-- Claim C8 (amended): the all-or-none invariant holds in one direction
only — whenever the walk ends with a non-empty RequestType, HttpMethod is
also non-empty (it was recorded by the arming annotation); but HttpMethod
and ApiEndpoint can end up set with RequestType empty, and a
non-interface declaration does not reset the armed state. -/
theorem c8_request_type_implies_method (pkg : String) (ns : List GoNode) (s : WalkState)
    (h : runWalker pkg ns = .ok s) (hrt : s.result.requestType ≠ "") :
    s.result.httpMethod ≠ "" := by
  have hinv0 : WalkInv { buildRequest := false, result := newParseResult pkg } := by
    constructor
    · intro hh
      simp at hh
    · intro hh
      simp [newParseResult] at hh
  exact (runNodes_inv ns _ s hinv0 h).2 hrt

/-- Concrete instance of the amended C8 statement. -/
theorem c8_witness :
    runWalker "p" [.commentNode "// @GET(\"/x\")", .typeSpecNode "I" true] = .ok c8State ∧
    c8State.result.httpMethod ≠ "" :=
  ⟨by decide,
   c8_request_type_implies_method "p" [.commentNode "// @GET(\"/x\")", .typeSpecNode "I" true]
     c8State (by decide) (by decide)⟩

/-!
Claim C4.
-/

theorem except_bind_ok {ε α β : Type} (x : Except ε α) (f : α → Except ε β) (b : β)
    (h : (x >>= f) = .ok b) : ∃ a, x = .ok a ∧ f a = .ok b := by
  cases x with
  | error e => simp [Bind.bind, Except.bind] at h
  | ok a =>
    refine ⟨a, rfl, ?_⟩
    simpa [Bind.bind, Except.bind] using h

/-- Claim C4 counterexample: a spec with CallbackType and AsyncResponse
present but SyncResponse absent does not generate the async wrapper —
generation aborts, because the async wrapper body asks for the function
name of the nil SyncResponse field. -/
theorem c4_counterexample : generate asyncOnlySpec = .error .fatalNilField := by
  decide

/-- Claim C4 (amended): the async block's emission gate indeed checks
only CallbackType and AsyncResponse and never requires a SYNC gate —
but its body references the sync wrapper's function name, so with
SyncResponse absent generation faults instead of succeeding; whenever
generation does succeed with CallbackType and AsyncResponse present, the
output contains the async wrapper and the callback type declaration. -/
theorem c4_async_requires_sync :
    (∀ r am, r.callbackType ≠ "" → r.asyncResponse = some am → r.syncResponse = none →
      ∀ g, generate r ≠ .ok g) ∧
    (∀ r g am, generate r = .ok g → r.callbackType ≠ "" → r.asyncResponse = some am →
      g.asyncWrapper.isSome ∧ g.callbackDecl = some (r.callbackType, r.responseType)) := by
  have hnoSync : ∀ r am, r.callbackType ≠ "" → r.asyncResponse = some am →
      r.syncResponse = none → ∀ y, emitAsyncWrapper r ≠ .ok y := by
    intro r am hcb har hsr y h
    unfold emitAsyncWrapper at h
    rw [if_pos hcb, har] at h
    obtain ⟨aname, haname, h⟩ := except_bind_ok _ _ _ h
    obtain ⟨pname, hpname, h⟩ := except_bind_ok _ _ _ h
    obtain ⟨sname, hsname, h⟩ := except_bind_ok _ _ _ h
    rw [hsr] at hsname
    simp [getFuncName] at hsname
  have hsome : ∀ r am y, r.callbackType ≠ "" → r.asyncResponse = some am →
      emitAsyncWrapper r = .ok y → y.isSome := by
    intro r am y hcb har h
    unfold emitAsyncWrapper at h
    rw [if_pos hcb, har] at h
    obtain ⟨aname, haname, h⟩ := except_bind_ok _ _ _ h
    obtain ⟨pname, hpname, h⟩ := except_bind_ok _ _ _ h
    obtain ⟨sname, hsname, h⟩ := except_bind_ok _ _ _ h
    simp only [pure, Except.pure, Except.ok.injEq] at h
    rw [← h]
    rfl
  constructor
  · intro r am hcb har hsr g hok
    unfold generate at hok
    obtain ⟨ps, hps, hok⟩ := except_bind_ok _ _ _ hok
    obtain ⟨qs, hqs, hok⟩ := except_bind_ok _ _ _ hok
    obtain ⟨fs, hfs, hok⟩ := except_bind_ok _ _ _ hok
    obtain ⟨bs, hbs, hok⟩ := except_bind_ok _ _ _ hok
    obtain ⟨hs, hhs, hok⟩ := except_bind_ok _ _ _ hok
    obtain ⟨ms, hms, hok⟩ := except_bind_ok _ _ _ hok
    obtain ⟨sync, hsync, hok⟩ := except_bind_ok _ _ _ hok
    obtain ⟨async, hasync, hok⟩ := except_bind_ok _ _ _ hok
    exact hnoSync r am hcb har hsr async hasync
  · intro r g am hok hcb har
    unfold generate at hok
    obtain ⟨ps, hps, hok⟩ := except_bind_ok _ _ _ hok
    obtain ⟨qs, hqs, hok⟩ := except_bind_ok _ _ _ hok
    obtain ⟨fs, hfs, hok⟩ := except_bind_ok _ _ _ hok
    obtain ⟨bs, hbs, hok⟩ := except_bind_ok _ _ _ hok
    obtain ⟨hs, hhs, hok⟩ := except_bind_ok _ _ _ hok
    obtain ⟨ms, hms, hok⟩ := except_bind_ok _ _ _ hok
    obtain ⟨sync, hsync, hok⟩ := except_bind_ok _ _ _ hok
    obtain ⟨async, hasync, hok⟩ := except_bind_ok _ _ _ hok
    simp only [pure, Except.pure, Except.ok.injEq] at hok
    rw [← hok]
    exact ⟨hsome r am async hcb har hasync, by simp [hcb]⟩

/-- Concrete instance of the amended C4 statement: the async-only spec
cannot generate the full output, while the spec carrying both SYNC and
ASYNC generates it with the async wrapper and callback declaration. -/
theorem c4_witness :
    generate asyncOnlySpec ≠ .ok syncAsyncGen ∧
    generate syncAsyncSpec = .ok syncAsyncGen ∧
    syncAsyncGen.asyncWrapper.isSome ∧
    syncAsyncGen.callbackDecl = some ("CB", "Resp") :=
  ⟨c4_async_requires_sync.1 asyncOnlySpec asyncMethod (by decide) rfl rfl syncAsyncGen,
   by decide,
   (c4_async_requires_sync.2 syncAsyncSpec syncAsyncGen asyncMethod (by decide)
     (by decide) rfl).1,
   (c4_async_requires_sync.2 syncAsyncSpec syncAsyncGen asyncMethod (by decide)
     (by decide) rfl).2⟩

/-!
Claim C9.
-/

theorem takeWhile_word_append (k rest2 : List Char)
    (hk : ∀ c ∈ k, isWordChar c = true) :
    (k ++ ('(' :: rest2)).takeWhile isWordChar = k := by
  induction k with
  | nil => rfl
  | cons c k1 ih =>
    have hc : isWordChar c = true := hk c (by simp)
    have ih1 := ih (fun c1 hm => hk c1 (by simp [hm]))
    simp [List.takeWhile_cons, hc, ih1]

theorem greedyCapture_append (p : List Char) (hp : '\n' ∉ p) :
    greedyCapture (p ++ ['"', ')']) = some p := by
  induction p with
  | nil => rfl
  | cons c p1 ih =>
    have hc : ¬c = '\n' := by
      intro h
      exact hp (by simp [h])
    have ih1 := ih (fun hm => hp (by simp [hm]))
    simp [greedyCapture, hc, ih1]

theorem matchAt_annot_form (key p : List Char) (hk0 : key ≠ [])
    (hkw : ∀ c ∈ key, isWordChar c = true) (hp : '\n' ∉ p) :
    matchAt ('@' :: (key ++ ('(' :: ('"' :: (p ++ ['"', ')']))))) = some (key, p) := by
  have h1 : (key ++ ('(' :: ('"' :: (p ++ ['"', ')'])))).takeWhile isWordChar = key :=
    takeWhile_word_append key _ hkw
  have h2 : (key ++ ('(' :: ('"' :: (p ++ ['"', ')'])))).drop key.length =
      '(' :: ('"' :: (p ++ ['"', ')'])) :=
    List.drop_left key _
  have h3 : key.isEmpty = false := by
    cases key with
    | nil => exact absurd rfl hk0
    | cons c k1 => rfl
  simp only [matchAt, h1, h3, h2, Bool.false_eq_true, if_false,
    greedyCapture_append p hp]
  rfl

theorem findMatch_of_matchAt (c : Char) (rest : List Char)
    (kv : List Char × List Char) (h : matchAt (c :: rest) = some kv) :
    findMatch (c :: rest) = some kv := by
  simp [findMatch, h]

theorem extractAnnot_annotInput (filter : String → Bool) (key p : String)
    (hk0 : key ≠ "") (hkw : ∀ c ∈ key.data, isWordChar c = true) (hp : '\n' ∉ p.data) :
    extractAnnot filter (annotInput key p) =
      if filter key then (⟨key, p⟩, true) else (⟨"", ""⟩, false) := by
  have hkd : key.data ≠ [] := by
    intro h
    apply hk0
    obtain ⟨l⟩ := key
    change l = [] at h
    rw [h]
  have hm := matchAt_annot_form key.data p.data hkd hkw hp
  have hdata : (annotInput key p).data =
      '@' :: (key.data ++ ('(' :: ('"' :: (p.data ++ ['"', ')'])))) := rfl
  unfold extractAnnot
  rw [hdata, findMatch_of_matchAt _ _ _ hm]

/-- The positive half of the amended C9 statement, for any key the HTTP
filter accepts. -/
theorem extractHttp_annotInput_pos (key p : String) (hfil : httpAnnotFilter key = true)
    (hk0 : key ≠ "") (hkw : ∀ c ∈ key.data, isWordChar c = true) (hp : '\n' ∉ p.data) :
    extractHttpAnnot (annotInput key p) =
      (⟨if key = "POST_FORM" then "POST" else key, p⟩, true) := by
  have h := extractAnnot_annotInput httpAnnotFilter key p hk0 hkw hp
  rw [if_pos hfil] at h
  unfold extractHttpAnnot
  rw [h]
  by_cases hpf : key = "POST_FORM"
  · simp [hpf]
  · simp [hpf]

/-- Claim C9 counterexample: the exact annotation form with key GET and a
value containing a newline yields no match (the regexp dot does not match
newline), where the claim demands the pair (GET, value). -/
theorem c9_counterexample :
    annotInput "GET" "a\nb" = "@GET(\"a\nb\")" ∧
    (extractHttpAnnot (annotInput "GET" "a\nb")).2 = false := by
  decide

/-- Claim C9 (amended): for every key in the HTTP-method set and every
value without a newline, extraction of the exact annotation form returns
the POST_FORM-normalized key with the exact value (the empty value
included); a non-empty word-character key outside the set yields no
match, as do the malformed shapes with a missing quote, missing
parentheses, or empty key. -/
theorem c9_http_extraction :
    (∀ key p, key ∈ httpMethods → '\n' ∉ p.data →
      extractHttpAnnot (annotInput key p) =
        (⟨if key = "POST_FORM" then "POST" else key, p⟩, true)) ∧
    (∀ key p, key ≠ "" → (∀ c ∈ key.data, isWordChar c = true) → key ∉ httpMethods →
      '\n' ∉ p.data → (extractHttpAnnot (annotInput key p)).2 = false) ∧
    (extractHttpAnnot "@GET(/test)").2 = false ∧
    (extractHttpAnnot "@GET\"/test\"").2 = false ∧
    (extractHttpAnnot "@(\"/test\")").2 = false := by
  refine ⟨?_, ?_, by decide, by decide, by decide⟩
  · intro key p hmem hp
    fin_cases hmem <;>
      exact extractHttp_annotInput_pos _ p (by decide) (by decide) (by decide) hp
  · intro key p hk0 hkw hnm hp
    have hfil : httpAnnotFilter key = false := by
      simpa [httpAnnotFilter] using hnm
    have h := extractAnnot_annotInput httpAnnotFilter key p hk0 hkw hp
    rw [if_neg (by simp [hfil])] at h
    unfold extractHttpAnnot
    rw [h]
    rfl

/-- Concrete instance of the amended C9 statement: POST_FORM normalizes
to POST with the value kept, and the parameter key SYNC is rejected. -/
theorem c9_witness :
    extractHttpAnnot (annotInput "POST_FORM" "/photos/x") = (⟨"POST", "/photos/x"⟩, true) ∧
    (extractHttpAnnot (annotInput "SYNC" "/photos/x")).2 = false :=
  ⟨by
    have h := c9_http_extraction.1 "POST_FORM" "/photos/x" (by decide) (by decide)
    simpa using h,
   c9_http_extraction.2.1 "SYNC" "/photos/x" (by decide) (by decide) (by decide) (by decide)⟩

/-!
Claim C6.
-/

theorem replaceAllFuel_congr (pat rep : List Char) :
    ∀ f1 f2 l, l.length ≤ f1 → l.length ≤ f2 →
      replaceAllFuel pat rep f1 l = replaceAllFuel pat rep f2 l := by
  intro f1
  induction f1 with
  | zero =>
    intro f2 l h1 h2
    have hl : l = [] := List.eq_nil_of_length_eq_zero (Nat.le_zero.mp h1)
    subst hl
    cases f2 <;> rfl
  | succ f ih =>
    intro f2 l h1 h2
    cases l with
    | nil => cases f2 <;> rfl
    | cons c s =>
      cases f2 with
      | zero => exact absurd h2 (by simp)
      | succ g =>
        simp only [replaceAllFuel]
        have hs1 : s.length ≤ f := by
          simp only [List.length_cons] at h1
          omega
        have hs2 : s.length ≤ g := by
          simp only [List.length_cons] at h2
          omega
        by_cases hpre : pat.isPrefixOf (c :: s)
        · rw [if_pos hpre, if_pos hpre]
          congr 1
          apply ih
          · calc (s.drop (pat.length - 1)).length ≤ s.length := by
                  simp [List.length_drop]
              _ ≤ f := hs1
          · calc (s.drop (pat.length - 1)).length ≤ s.length := by
                  simp [List.length_drop]
              _ ≤ g := hs2
        · rw [if_neg hpre, if_neg hpre]
          congr 1
          exact ih g s hs1 hs2

theorem replaceAll_cons (pat rep : List Char) (c : Char) (s : List Char) :
    replaceAll pat rep (c :: s) =
      if pat.isPrefixOf (c :: s) then
        rep ++ replaceAll pat rep (s.drop (pat.length - 1))
      else c :: replaceAll pat rep s := by
  unfold replaceAll
  simp only [List.length_cons, replaceAllFuel]
  by_cases hpre : pat.isPrefixOf (c :: s)
  · rw [if_pos hpre, if_pos hpre]
    congr 1
    apply replaceAllFuel_congr
    · simp [List.length_drop]
    · exact Nat.le_refl _
  · rw [if_neg hpre, if_neg hpre]

theorem replaceAll_brace_skip (pat rep : List Char) (l : List Char)
    (hpat : pat.head? = some '{') (hl : '{' ∉ l) :
    ∀ s, replaceAll pat rep (l ++ s) = l ++ replaceAll pat rep s := by
  induction l with
  | nil => intro s; rfl
  | cons c l1 ih =>
    intro s
    have hc : c ≠ '{' := by
      intro h
      exact hl (by simp [h])
    have hnp : pat.isPrefixOf (c :: (l1 ++ s)) = false := by
      cases pat with
      | nil => simp at hpat
      | cons p0 pt =>
        have hp0 : p0 = '{' := by simpa using hpat
        have hb : (p0 == c) = false := beq_eq_false_iff_ne.mpr (by rw [hp0]; exact Ne.symm hc)
        simp [List.isPrefixOf, hb]
    rw [List.cons_append, replaceAll_cons]
    simp only [hnp, Bool.false_eq_true, if_false]
    rw [ih (fun hm => hl (by simp [hm])) s]
    rfl

theorem isPrefixOf_self_append (l s : List Char) : l.isPrefixOf (l ++ s) = true := by
  induction l with
  | nil => simp [List.isPrefixOf]
  | cons c l1 ih => simp [List.isPrefixOf, ih]

theorem replaceAll_hit (pat rep s : List Char) (h0 : pat ≠ []) :
    replaceAll pat rep (pat ++ s) = rep ++ replaceAll pat rep s := by
  cases pat with
  | nil => exact absurd rfl h0
  | cons p0 pt =>
    have hpre : (p0 :: pt).isPrefixOf (p0 :: (pt ++ s)) = true := by
      have h := isPrefixOf_self_append (p0 :: pt) s
      rw [List.cons_append] at h
      exact h
    rw [List.cons_append, replaceAll_cons]
    simp only [hpre, if_true]
    congr 1
    rw [show (p0 :: pt).length - 1 = pt.length by simp]
    rw [List.drop_left]

theorem key_close_not_prefix (k : List Char) :
    ∀ (j s : List Char), k ≠ j → '}' ∉ k → '}' ∉ j →
      (k ++ ['}']).isPrefixOf (j ++ ('}' :: s)) = false := by
  induction k with
  | nil =>
    intro j s hne hk hj
    cases j with
    | nil => exact absurd rfl hne
    | cons b j1 =>
      have hb : ('}' == b) = false :=
        beq_eq_false_iff_ne.mpr (fun h => hj (by simp [h.symm]))
      simp [List.isPrefixOf, hb]
  | cons a k1 ih =>
    intro j s hne hk hj
    have ha : a ≠ '}' := fun h => hk (by simp [h])
    cases j with
    | nil =>
      have hb : (a == '}') = false := beq_eq_false_iff_ne.mpr ha
      simp [List.isPrefixOf, hb]
    | cons b j1 =>
      by_cases hab : a = b
      · subst hab
        have hne1 : k1 ≠ j1 := by
          intro h
          exact hne (by rw [h])
        have hk1 : '}' ∉ k1 := fun hm => hk (by simp [hm])
        have hj1 : '}' ∉ j1 := fun hm => hj (by simp [hm])
        simp only [List.cons_append, List.isPrefixOf, beq_self_eq_true, Bool.true_and]
        exact ih j1 s hne1 hk1 hj1
      · have hb : (a == b) = false := beq_eq_false_iff_ne.mpr hab
        simp [List.isPrefixOf, hb]

theorem replaceAll_other_token (k j rep : List Char) (hne : k ≠ j)
    (hk : BraceFreeL k) (hj : BraceFreeL j) :
    ∀ s, replaceAll ('{' :: (k ++ ['}'])) rep (('{' :: (j ++ ['}'])) ++ s) =
      ('{' :: (j ++ ['}'])) ++ replaceAll ('{' :: (k ++ ['}'])) rep s := by
  intro s
  have hshape : (j ++ ['}']) ++ s = j ++ ('}' :: s) := by
    simp
  have hnp : ('{' :: (k ++ ['}'])).isPrefixOf ('{' :: ((j ++ ['}']) ++ s)) = false := by
    simp only [List.isPrefixOf, beq_self_eq_true, Bool.true_and]
    rw [hshape]
    exact key_close_not_prefix k j s hne hk.2 hj.2
  rw [List.cons_append, replaceAll_cons]
  simp only [hnp, Bool.false_eq_true, if_false]
  rw [replaceAll_brace_skip ('{' :: (k ++ ['}'])) rep (j ++ ['}']) rfl ?hnob s]
  · rfl
  · intro hm
    rcases List.mem_append.mp hm with hmj | hms
    · exact hj.1 hmj
    · simp at hms

theorem replaceAll_render (k w : List Char) (segs : List PathSeg)
    (hk : BraceFreeL k) (hsegs : SegsWF segs) :
    replaceAll ('{' :: (k ++ ['}'])) w (renderTemplate segs) =
      renderTemplate (segs.map (substOne k w)) := by
  induction segs with
  | nil => rfl
  | cons sg rest ih =>
    have hsg : SegWF sg := hsegs sg (by simp)
    have hrest : SegsWF rest := fun x hx => hsegs x (by simp [hx])
    have ih1 := ih hrest
    cases sg with
    | lit l =>
      show replaceAll ('{' :: (k ++ ['}'])) w (l ++ renderTemplate rest) =
        l ++ renderTemplate (rest.map (substOne k w))
      rw [replaceAll_brace_skip ('{' :: (k ++ ['}'])) w l rfl hsg.1, ih1]
    | tok j =>
      by_cases hjk : j = k
      · subst hjk
        show replaceAll ('{' :: (j ++ ['}'])) w (('{' :: (j ++ ['}'])) ++ renderTemplate rest) =
          renderTemplate ((PathSeg.tok j :: rest).map (substOne j w))
        rw [replaceAll_hit _ _ _ (by simp), ih1]
        simp [substOne, renderTemplate, renderSeg]
      · show replaceAll ('{' :: (k ++ ['}'])) w (('{' :: (j ++ ['}'])) ++ renderTemplate rest) =
          renderTemplate ((PathSeg.tok j :: rest).map (substOne k w))
        rw [replaceAll_other_token k j w (fun h => hjk h.symm) hk hsg, ih1]
        simp [substOne, hjk, renderTemplate, renderSeg]

theorem segsWF_map_substOne (k w : List Char) (segs : List PathSeg)
    (hw : BraceFreeL w) (hsegs : SegsWF segs) :
    SegsWF (segs.map (substOne k w)) := by
  intro sg hsg
  obtain ⟨sg0, hmem, rfl⟩ := List.mem_map.mp hsg
  have h0 := hsegs sg0 hmem
  cases sg0 with
  | lit l => exact h0
  | tok j =>
    by_cases hjk : j = k
    · simp only [substOne, hjk, if_true]
      exact hw
    · simp only [substOne, hjk, if_false]
      exact h0

theorem foldl_replaceAll_render (ps : List (String × String)) :
    ∀ segs, SegsWF segs → (∀ kv ∈ ps, BraceFreeL kv.1.data ∧ BraceFreeL kv.2.data) →
      ps.foldl (fun s kv => replaceAll ('{' :: (kv.1.data ++ ['}'])) kv.2.data s)
        (renderTemplate segs) =
      renderTemplate (segs.map (substAllList ps)) := by
  induction ps with
  | nil =>
    intro segs hsegs hps
    simp only [List.foldl_nil]
    congr 1
    rw [show substAllList ([] : List (String × String)) = (fun sg => sg) from rfl]
    rw [List.map_id']
  | cons kv ps1 ih =>
    intro segs hsegs hps
    have hkv := hps kv (by simp)
    have hps1 : ∀ x ∈ ps1, BraceFreeL x.1.data ∧ BraceFreeL x.2.data :=
      fun x hx => hps x (by simp [hx])
    simp only [List.foldl_cons]
    rw [replaceAll_render kv.1.data kv.2.data segs hkv.1 hsegs]
    rw [ih (segs.map (substOne kv.1.data kv.2.data))
        (segsWF_map_substOne _ _ _ hkv.2 hsegs) hps1]
    rw [List.map_map]
    rfl

theorem substAllList_lit (ps : List (String × String)) (l : List Char) :
    substAllList ps (.lit l) = .lit l := by
  induction ps with
  | nil => rfl
  | cons kv ps1 ih =>
    show substAllList ps1 (substOne kv.1.data kv.2.data (.lit l)) = .lit l
    rw [show substOne kv.1.data kv.2.data (.lit l) = .lit l from rfl]
    exact ih

theorem substAllList_tok (ps : List (String × String)) (j : List Char) :
    substAllList ps (.tok j) =
      match lookupData j ps with
      | some w => .lit w
      | none => .tok j := by
  induction ps with
  | nil => rfl
  | cons kv ps1 ih =>
    show substAllList ps1 (substOne kv.1.data kv.2.data (.tok j)) = _
    by_cases hjk : j = kv.1.data
    · rw [show substOne kv.1.data kv.2.data (.tok j) = .lit kv.2.data by
        simp [substOne, hjk]]
      rw [substAllList_lit]
      rw [show lookupData j (kv :: ps1) = some kv.2.data by
        simp [lookupData, hjk.symm]]
    · rw [show substOne kv.1.data kv.2.data (.tok j) = .tok j by
        simp [substOne, hjk]]
      rw [ih]
      rw [show lookupData j (kv :: ps1) = lookupData j ps1 by
        simp [lookupData, Ne.symm hjk]]

theorem string_eq_of_data (a b : String) (h : a.data = b.data) : a = b := by
  obtain ⟨la⟩ := a
  obtain ⟨lb⟩ := b
  change la = lb at h
  rw [h]

theorem lookupData_perm (j : List Char) :
    ∀ (ps qs : List (String × String)), ps.Perm qs →
      (ps.map Prod.fst).Nodup → lookupData j ps = lookupData j qs := by
  intro ps qs hperm
  induction hperm with
  | nil => intro _; rfl
  | cons x hpl ih =>
    intro hnd
    rw [List.map_cons] at hnd
    have hnd1 := List.Nodup.of_cons hnd
    by_cases hx : x.1.data = j
    · simp [lookupData, hx]
    · simp [lookupData, hx, ih hnd1]
  | swap x y l =>
    intro hnd
    rw [List.map_cons, List.map_cons] at hnd
    have hxy : y.1 ≠ x.1 := by
      intro h
      apply (List.nodup_cons.mp hnd).1
      rw [h]
      exact List.mem_cons_self _ _
    by_cases hy : y.1.data = j <;> by_cases hx : x.1.data = j
    · exact absurd (string_eq_of_data y.1 x.1 (by rw [hy, hx])) hxy
    · simp [lookupData, hy, hx]
    · simp [lookupData, hy, hx]
    · simp [lookupData, hy, hx]
  | trans h1 h2 ih1 ih2 =>
    intro hnd
    rw [ih1 hnd, ih2 (((List.Perm.map Prod.fst h1).nodup_iff).mp hnd)]

/-- Claim C6 counterexample: with two distinct PATH keys a and b, a
template holding exactly the tokens of a and b, and the value stored for
a itself containing the token of b, the two iteration orders of the same
substitution map produce different endpoints — substitution is not
order-independent as claimed. -/
theorem c6_counterexample :
    [("a", tokenOf "b"), ("b", "X")].Perm [("b", "X"), ("a", tokenOf "b")] ∧
    applyPathSubstituions [("a", tokenOf "b"), ("b", "X")] (tokenOf "a" ++ tokenOf "b").data ≠
      applyPathSubstituions [("b", "X"), ("a", tokenOf "b")] (tokenOf "a" ++ tokenOf "b").data := by
  refine ⟨List.Perm.swap ("b", "X") ("a", tokenOf "b") [], ?_⟩
  decide

/-- Claim C6 (amended): provided keys and stringified values contain no
brace characters, and the endpoint template consists of brace-free
literal runs and brace-wrapped tokens, path substitution applied in any
iteration order of the recorded map equals the simultaneous substitution:
every occurrence of each token is replaced by the value of its key, and
tokens with no recorded key are left verbatim. -/
theorem c6_path_substitution (segs : List PathSeg) (ps qs : List (String × String))
    (hsegs : SegsWF segs)
    (hps : ∀ kv ∈ ps, BraceFreeL kv.1.data ∧ BraceFreeL kv.2.data)
    (hnd : (ps.map Prod.fst).Nodup)
    (hperm : ps.Perm qs) :
    applyPathSubstituions qs (renderTemplate segs) =
      renderTemplate (segs.map (substAllList ps)) := by
  unfold applyPathSubstituions
  by_cases hq : qs = []
  · subst hq
    have hp0 : ps = [] := hperm.eq_nil
    subst hp0
    rw [if_pos rfl]
    congr 1
    rw [show substAllList ([] : List (String × String)) = (fun sg => sg) from rfl]
    rw [List.map_id']
  · rw [if_neg hq]
    simp only [List.cons_append]
    have hqs : ∀ kv ∈ qs, BraceFreeL kv.1.data ∧ BraceFreeL kv.2.data :=
      fun kv hm => hps kv (hperm.mem_iff.mpr hm)
    rw [foldl_replaceAll_render qs segs hsegs hqs]
    congr 1
    apply List.map_congr_left
    intro sg _
    cases sg with
    | lit l => rw [substAllList_lit, substAllList_lit]
    | tok j =>
      rw [substAllList_tok, substAllList_tok, lookupData_perm j ps qs hperm hnd]

/-- Concrete instance of the amended C6 statement: substituting id and n
into the template with exactly those two tokens, in either map order,
yields the fully substituted endpoint. -/
theorem c6_witness :
    applyPathSubstituions [("n", "42"), ("id", "7")]
        (renderTemplate [PathSeg.lit "/photos/".data, PathSeg.tok "id".data,
          PathSeg.lit "/c/".data, PathSeg.tok "n".data]) =
      renderTemplate ([PathSeg.lit "/photos/".data, PathSeg.tok "id".data,
          PathSeg.lit "/c/".data, PathSeg.tok "n".data].map
        (substAllList [("id", "7"), ("n", "42")])) ∧
    renderTemplate ([PathSeg.lit "/photos/".data, PathSeg.tok "id".data,
          PathSeg.lit "/c/".data, PathSeg.tok "n".data].map
        (substAllList [("id", "7"), ("n", "42")])) = "/photos/7/c/42".data :=
  ⟨c6_path_substitution
      [PathSeg.lit "/photos/".data, PathSeg.tok "id".data,
        PathSeg.lit "/c/".data, PathSeg.tok "n".data]
      [("id", "7"), ("n", "42")] [("n", "42"), ("id", "7")]
      (by decide) (by decide) (by decide)
      (List.Perm.swap ("n", "42") ("id", "7") []),
   by decide⟩

end GoRest
